import Mathlib

/-
Shallow embedding of the tool-augmented conversation orchestrator of
src/client.py (class MCPClient): the data model of messages, tool calls and
completion responses, the query-processing function process_query
(client.py lines 48-163) and the interactive session loop chat_loop
(client.py lines 165-175).  The remote collaborators (the Groq completion
endpoint, the MCP tool server and the JSON parser) are modelled as a
deterministic environment record.
-/

namespace MCPClient

/-- Conversation message: a role/content pair, as in the dictionaries
appended to the messages list of process_query. -/
structure Message where
  role : String
  content : String
deriving Repr, DecidableEq, Inhabited

/-- Tool metadata returned by client.list_tools(): name, description and
input schema (the schema is kept abstract as a string). -/
structure ToolDescriptor where
  name : String
  description : String
  inputSchema : String
deriving Repr, DecidableEq, Inhabited

/-- Inner function object of a Groq tool schema entry. -/
structure GroqFunction where
  name : String
  description : String
  parameters : String
deriving Repr, DecidableEq, Inhabited

/-- One entry of the groq_tools list built in process_query (client.py
lines 71-81). -/
structure GroqTool where
  type : String
  function : GroqFunction
deriving Repr, DecidableEq, Inhabited

/-- Structured tool arguments: a JSON object modelled as a key/value list. -/
abbrev ArgMap := List (String × String)

/-- Arguments of a requested tool call: either a raw JSON string (to be
parsed with json.loads) or an already structured map, mirroring the
isinstance(tool_args, str) test at client.py line 112. -/
inductive ToolArgs where
  | str (s : String)
  | map (m : ArgMap)
deriving Repr, DecidableEq, Inhabited

/-- One tool call requested by the model (tool_call.function.name and
tool_call.function.arguments). -/
structure ToolCall where
  name : String
  arguments : ToolArgs
deriving Repr, DecidableEq, Inhabited

/-- One content block of a tool result (result.content[i].text). -/
structure ContentBlock where
  text : String
deriving Repr, DecidableEq, Inhabited

/-- Result of client.call_tool: an ordered sequence of content blocks. -/
structure ToolResult where
  content : List ContentBlock
deriving Repr, DecidableEq, Inhabited

/-- The message part of a completion choice: optional text content and the
list of requested tool calls (None is modelled by the empty list, which is
equally falsy in the Python conditions). -/
structure ChoiceMessage where
  content : Option String
  tool_calls : List ToolCall
deriving Repr, DecidableEq, Inhabited

/-- First choice of a completion response (response.choices[0]): finish
reason plus message.  The provider guarantees at least one choice, so the
environment oracle returns this first choice directly. -/
structure Choice where
  finish_reason : String
  message : ChoiceMessage
deriving Repr, DecidableEq, Inhabited

/-- A request to the completion endpoint, as assembled by
self.groq.chat.completions.create(model=..., messages=..., tools=...,
max_tokens=...). -/
structure CompletionRequest where
  model : String
  messages : List Message
  tools : List GroqTool
  max_tokens : Nat
deriving Repr, DecidableEq, Inhabited

/-- Exceptions that can escape process_query: a json.loads failure on the
raw argument string, an exception raised by client.call_tool (carrying the
remote payload), and the IndexError raised by result.content[0] on an
empty content sequence. -/
inductive QueryError where
  | argumentParse (raw : String)
  | toolExecution (name : String) (payload : String)
  | indexError
deriving Repr, DecidableEq, Inhabited

/-- Deterministic model of the remote world seen by one query: the tool
catalog snapshot returned by client.list_tools(), the completion oracle
(returning the first choice of the response to a given request), the tool
server and the JSON parser (json.loads, with none modelling a raised
ValueError). -/
structure Env where
  listTools : List ToolDescriptor
  complete : CompletionRequest → Choice
  callTool : String → ArgMap → Except String ToolResult
  jsonParse : String → Option ArgMap

/-- Observable event of one query: a network call to the completion
endpoint (with the full request) or an invocation of the tool executor. -/
inductive TraceEvent where
  | completionCall (req : CompletionRequest)
  | toolInvoke (name : String) (args : ArgMap)
deriving Repr, DecidableEq, Inhabited

/-- Shape of a trace event, forgetting payloads except the tool name. -/
inductive TraceKind where
  | completion
  | invoke (name : String)
deriving Repr, DecidableEq, Inhabited

/-- Shapes of the events of a trace. -/
def traceKinds (tr : List TraceEvent) : List TraceKind :=
  tr.map fun e =>
    match e with
    | TraceEvent.completionCall _ => TraceKind.completion
    | TraceEvent.toolInvoke n _ => TraceKind.invoke n

/-- Message histories passed to the completion endpoint, in call order. -/
def completionHistories (tr : List TraceEvent) : List (List Message) :=
  tr.filterMap fun e =>
    match e with
    | TraceEvent.completionCall req => some req.messages
    | TraceEvent.toolInvoke _ _ => none

/-- Tool-executor invocations (name and structured arguments), in order. -/
def invocationPairs (tr : List TraceEvent) : List (String × ArgMap) :=
  tr.filterMap fun e =>
    match e with
    | TraceEvent.completionCall _ => none
    | TraceEvent.toolInvoke n a => some (n, a)

/-- Model of Python str.strip(): drop whitespace from both ends. -/
def pyStrip (s : String) : String :=
  String.mk (((s.data.dropWhile Char.isWhitespace).reverse.dropWhile Char.isWhitespace).reverse)

/-- Model of Python str.lower(). -/
def pyLower (s : String) : String :=
  String.mk (s.data.map Char.toLower)

/-- Model of Python str(x) on an optional string, rendering None as the
text "None" (as the f-string interpolation of tool_args.get("topic") does). -/
def pyOptStr : Option String → String
  | none => "None"
  | some s => s

/-- Model of dict.get on the structured argument map. -/
def argsGet (m : ArgMap) (k : String) : Option String :=
  (m.find? fun p => p.fst == k).map Prod.snd

/-- Python truthiness of message.content: not None and not empty. -/
def truthy : Option String → Bool
  | none => false
  | some s => !s.isEmpty

/-- System preamble seeded into the message history (client.py lines 52-63). -/
def system_prompt : String :=
  "
            You are an intelligent assistant designed to help users by leveraging a variety of specialized tools and functions available to you. Your job is to understand the user\u0027s queries and determine when to call the appropriate tool to fetch accurate and relevant information. Always aim to provide clear, concise, and helpful responses by integrating tool outputs when necessary. If you don\u0027t have enough information, prompt the user for clarification. Your goal is to assist the user efficiently by combining your language understanding with the power of these external tools.

            You have access to the following tools:
            - search_papers: Search for academic papers on a specific topic.
            - extract_info: Extract detailed information about a specific paper.
            - get_topic_papers: Retrieve detailed information about papers on a specific topic.
            Use these tools to enhance your responses and provide the user with the best possible information.
            You have access to the following prompt:
            - generate_search_prompt: Generate a prompt for the LLM to find and discuss academic papers on a specific topic.
            Use this prompt to create a focused search for papers related to the user\u0027s query.
        "

/-- Steering instruction injected after each tool call (the f-string at
client.py lines 124-146), as a function of the first content-block text of
the tool result and of the rendered topic argument. -/
def assistant_prompt_text (firstText topic : String) : String :=
  "
                If you used the \u0027search_papers\u0027 tool, you should have a list of paper IDs in " ++ firstText ++ ".
                    The assistant has just retrieved information from a specialized tool in " ++ firstText ++ " which contains the paper ID retreived from the arxiv server. Use these paper IDs to fetch detailed information about the papers.
                    For each paper found, extract and organize the following information:
                    - Paper title
                    - Authors
                    - Publication date
                    - Brief summary of the key findings
                    - Main contributions or innovations
                    - Methodologies used
                    - Relevance to the topic \u0027" ++ topic ++ "\u0027

                    3. Provide a comprehensive summary that includes:
                    - Overview of the current state of research in \u0027" ++ topic ++ "\u0027
                    - Common themes and trends across the papers
                    - Key research gaps or areas for future investigation
                    - Most impactful or influential papers in this area

                    4. Organize your findings in a clear, structured format with headings and bullet points for easy readability.

                    Please present both detailed information about each paper and a high-level synthesis of the research landscape in " ++ topic ++ ".
                    Avoid unnecessary repetition and keep the response focused and engaging.
                    "

/-- Translation of the tool catalog into the Groq function-calling schema
(client.py lines 71-81). -/
def groq_tools (tools : List ToolDescriptor) : List GroqTool :=
  tools.map fun tool =>
    { type := "function"
      function :=
        { name := tool.name
          description := tool.description
          parameters := tool.inputSchema } }

/-- Completion request as assembled at client.py lines 84-90 and 151-157:
fixed model name and max_tokens, current messages and tool schema. -/
def mkRequest (messages : List Message) (tools : List GroqTool) : CompletionRequest :=
  { model := "llama-3.3-70b-versatile"
    messages := messages
    tools := tools
    max_tokens := 1000 }

/-- Initial message history of a query: system preamble then the user
query (client.py lines 64-67). -/
def initialMessages (query : String) : List Message :=
  [{ role := "system", content := system_prompt },
   { role := "user", content := query }]

/-- The first completion request of a query (client.py lines 84-90). -/
def initialRequest (env : Env) (query : String) : CompletionRequest :=
  mkRequest (initialMessages query) (groq_tools env.listTools)

/-- First choice of the response to the initial completion call. -/
def initialChoice (env : Env) (query : String) : Choice :=
  env.complete (initialRequest env query)

/-- Mutable state of the tool-call loop: the message history, the
final_text fragment list and the observable event trace. -/
structure LoopState where
  messages : List Message
  final_text : List String
  trace : List TraceEvent
deriving Repr, Inhabited

/-- State right after the initial completion call: initial history, empty
fragment list, one completion-call event. -/
def initState (env : Env) (query : String) : LoopState :=
  { messages := initialMessages query
    final_text := []
    trace := [TraceEvent.completionCall (initialRequest env query)] }

/-- Argument normalization (client.py lines 112-113): a raw string is
passed to json.loads, whose failure raises; a structured map passes
through. -/
def normalizeArgs (env : Env) : ToolArgs → Except QueryError ArgMap
  | ToolArgs.str s =>
      match env.jsonParse s with
      | some m => Except.ok m
      | none => Except.error (QueryError.argumentParse s)
  | ToolArgs.map m => Except.ok m

/-- Fragments contributed by the follow-up completion response (client.py
lines 159-161): the content, if truthy. -/
def nextFragments (c : Choice) : List String :=
  match c.message.content with
  | some s => if s.isEmpty then [] else [s]
  | none => []

/-- One iteration of the tool-call loop (client.py lines 107-161):
normalize arguments, invoke the tool, build the steering instruction from
result.content[0].text (IndexError on an empty content sequence), append
that single assistant message to the history, call the completion endpoint
again with the extended history, and collect its content if truthy. -/
def processToolCall (env : Env) (tools : List GroqTool) (tc : ToolCall)
    (st : LoopState) : Except QueryError LoopState :=
  match normalizeArgs env tc.arguments with
  | Except.error e => Except.error e
  | Except.ok tool_args =>
    match env.callTool tc.name tool_args with
    | Except.error payload => Except.error (QueryError.toolExecution tc.name payload)
    | Except.ok result =>
      match result.content with
      | [] => Except.error QueryError.indexError
      | b :: _ =>
        let assistant_prompt :=
          assistant_prompt_text b.text (pyOptStr (argsGet tool_args "topic"))
        let messages2 := st.messages ++ [{ role := "assistant", content := assistant_prompt }]
        let req := mkRequest messages2 tools
        let next_choice := env.complete req
        Except.ok
          { messages := messages2
            final_text := st.final_text ++ nextFragments next_choice
            trace := st.trace ++ [TraceEvent.toolInvoke tc.name tool_args,
                                  TraceEvent.completionCall req] }

/-- The for-loop over the tool calls of the first response (client.py
line 107): process them one at a time, propagating any raised exception. -/
def runToolCalls (env : Env) (tools : List GroqTool) :
    List ToolCall → LoopState → Except QueryError LoopState
  | [], st => Except.ok st
  | tc :: rest, st =>
      match processToolCall env tools tc st with
      | Except.error e => Except.error e
      | Except.ok st1 => runToolCalls env tools rest st1

/-- Observable outcome of a successful query: the returned answer, the
final history, the collected final_text fragments and the event trace. -/
structure QueryOutcome where
  answer : String
  messages : List Message
  fragments : List String
  trace : List TraceEvent
deriving Repr, Inhabited

/-- Packaging of the loop state into the outcome: the returned string is
the concatenation of the fragments, stripped (client.py line 163). -/
def mkOutcome (s : LoopState) : QueryOutcome :=
  { answer := pyStrip (String.join s.final_text)
    messages := s.messages
    fragments := s.final_text
    trace := s.trace }

/-- The query orchestrator MCPClient.process_query (client.py lines
48-163): seed the history, make the initial completion call, then either
record the stop text, run the requested tool calls, or fall through
silently, and return the joined, stripped final_text. -/
def process_query (env : Env) (query : String) : Except QueryError QueryOutcome :=
  let choice := initialChoice env query
  let st := initState env query
  let finished : Except QueryError LoopState :=
    if choice.finish_reason = "stop" ∧ truthy choice.message.content then
      Except.ok { st with final_text := st.final_text ++ [choice.message.content.getD ""] }
    else if choice.finish_reason = "tool_calls" ∧ choice.message.tool_calls ≠ [] then
      runToolCalls env (groq_tools env.listTools) choice.message.tool_calls st
    else
      Except.ok st
  match finished with
  | Except.ok s => Except.ok (mkOutcome s)
  | Except.error e => Except.error e

/-- Observable event of one session-loop iteration: a printed answer or a
printed per-query error message. -/
inductive SessionEvent where
  | answer (text : String)
  | errorMsg (e : QueryError)
deriving Repr, DecidableEq, Inhabited

/-- The interactive session loop MCPClient.chat_loop (client.py lines
165-175) over a list of input lines: strip the input, stop on the quit
sentinel, otherwise run process_query and report either the response or
the caught exception, then continue with the remaining inputs. -/
def chat_loop (env : Env) : List String → List SessionEvent
  | [] => []
  | q :: rest =>
      let query := pyStrip q
      if pyLower query = "quit" then []
      else
        (match process_query env query with
         | Except.ok out => SessionEvent.answer out.answer
         | Except.error e => SessionEvent.errorMsg e) :: chat_loop env rest

/-
Concrete test environments used by the closed counterexample and witness
theorems below.  They instantiate the abstract remote world with small
deterministic oracles; the completion oracle distinguishes the initial
call from follow-up calls by the history length.
-/

/-- Descriptor of the search_papers tool. -/
def descSearch : ToolDescriptor :=
  { name := "search_papers", description := "Search for academic papers on a topic",
    inputSchema := "object" }

/-- Descriptor of the extract_info tool. -/
def descExtract : ToolDescriptor :=
  { name := "extract_info", description := "Extract details about a paper",
    inputSchema := "object" }

/-- A one-block tool result holding a paper id list. -/
def searchResult : ToolResult := { content := [{ text := "[1234.5678]" }] }

/-- A search_papers call with structured arguments. -/
def tcSearch : ToolCall :=
  { name := "search_papers", arguments := ToolArgs.map [("topic", "superconductors")] }

/-- An extract_info call with structured arguments. -/
def tcExtract : ToolCall :=
  { name := "extract_info", arguments := ToolArgs.map [("paper_id", "1234.5678")] }

/-- A search_papers call whose arguments are an unparseable raw string. -/
def tcBadArgs : ToolCall :=
  { name := "search_papers", arguments := ToolArgs.str "not json" }

/-- A call to a name absent from the tool catalog. -/
def tcMystery : ToolCall :=
  { name := "mystery_tool", arguments := ToolArgs.map [] }

/-- A tool_calls completion choice with the given requests. -/
def respToolCalls (calls : List ToolCall) : Choice :=
  { finish_reason := "tool_calls", message := { content := none, tool_calls := calls } }

/-- A stop completion choice with the given text. -/
def respStop (text : String) : Choice :=
  { finish_reason := "stop", message := { content := some text, tool_calls := [] } }

/-- Environment whose first response requests one search_papers call and
whose follow-up responses stop with text. -/
def envOneCall : Env :=
  { listTools := [descSearch, descExtract]
    complete := fun req =>
      if req.messages.length = 2 then respToolCalls [tcSearch]
      else respStop "Here are the papers."
    callTool := fun _ _ => Except.ok searchResult
    jsonParse := fun _ => none }

/-- Environment whose first response requests two tool calls. -/
def envTwoCalls : Env :=
  { envOneCall with
    complete := fun req =>
      if req.messages.length = 2 then respToolCalls [tcSearch, tcExtract]
      else respStop "Summary." }

/-- Environment whose first response requests two tool calls and whose
follow-up responses keep requesting further tool calls. -/
def envLoopy : Env :=
  { envOneCall with
    complete := fun req =>
      if req.messages.length = 2 then respToolCalls [tcSearch, tcExtract]
      else respToolCalls [tcSearch] }

/-- Environment whose responses stop with absent content. -/
def envStopEmpty : Env :=
  { envOneCall with
    complete := fun _ =>
      { finish_reason := "stop", message := { content := none, tool_calls := [] } } }

/-- Environment whose responses claim tool_calls but list none. -/
def envEmptyToolCalls : Env :=
  { envOneCall with
    complete := fun _ =>
      { finish_reason := "tool_calls", message := { content := none, tool_calls := [] } } }

/-- Environment whose first response carries unparseable raw arguments. -/
def envBadArgs : Env :=
  { envOneCall with
    complete := fun req =>
      if req.messages.length = 2 then respToolCalls [tcBadArgs]
      else respStop "ok" }

/-- Environment whose tool server rejects every invocation. -/
def envToolFails : Env :=
  { envOneCall with
    callTool := fun _ _ => Except.error "rate limited" }

/-- Environment whose first response requests a tool name absent from the
catalog. -/
def envUnknownTool : Env :=
  { envOneCall with
    complete := fun req =>
      if req.messages.length = 2 then respToolCalls [tcMystery]
      else respStop "done" }

/-- Environment whose tool server answers with an empty content sequence. -/
def envEmptyContent : Env :=
  { envOneCall with
    callTool := fun _ _ => Except.ok { content := [] } }

/-- Trace of a query result, empty on error. -/
def traceOf : Except QueryError QueryOutcome → List TraceEvent
  | Except.ok o => o.trace
  | Except.error _ => []

/-- Trace kinds of a query result. -/
def traceKindsOf (r : Except QueryError QueryOutcome) : List TraceKind :=
  traceKinds (traceOf r)

/-- Answer of a query result, none on error. -/
def queryAnswers : Except QueryError QueryOutcome → Option String
  | Except.ok o => some o.answer
  | Except.error _ => none

/-- Outcome of a query result, defaulting on error. -/
def outOf (r : Except QueryError QueryOutcome) : QueryOutcome :=
  (r.toOption).getD default

/-
Proof infrastructure: the shape of one successful loop iteration, and an
inductive specification of the whole tool-call loop.
-/

/-- One message history extends another by a suffix of appended messages. -/
def appendLe (a b : List Message) : Prop := ∃ t, b = a ++ t

lemma appendLe_trans {a b c : List Message} (h1 : appendLe a b) (h2 : appendLe b c) :
    appendLe a c := by
  obtain ⟨t1, rfl⟩ := h1
  obtain ⟨t2, rfl⟩ := h2
  exact ⟨t1 ++ t2, by rw [List.append_assoc]⟩

instance : IsTrans (List Message) appendLe := ⟨fun _ _ _ => appendLe_trans⟩

/-- A fragment of a follow-up response is its (truthy) content. -/
lemma mem_nextFragments {c : Choice} {s : String} (h : s ∈ nextFragments c) :
    c.message.content = some s := by
  unfold nextFragments at h
  split at h
  next s0 heq =>
    split at h
    · exact absurd h (List.not_mem_nil s)
    · rw [heq]
      rw [List.mem_singleton.mp h]
  next heq => exact absurd h (List.not_mem_nil s)

/-- Shape of a successful loop iteration: arguments normalized, tool
invoked with a non-empty result, exactly one assistant message appended,
exactly one invoke event and one completion event (whose request carries
the extended history) added to the trace, and the follow-up fragments
appended. -/
lemma processToolCall_ok {env : Env} {tools : List GroqTool} {tc : ToolCall}
    {st st' : LoopState} (h : processToolCall env tools tc st = Except.ok st') :
    ∃ args msg r,
      normalizeArgs env tc.arguments = Except.ok args ∧
      env.callTool tc.name args = Except.ok r ∧
      r.content ≠ [] ∧
      msg.role = "assistant" ∧
      st'.messages = st.messages ++ [msg] ∧
      st'.trace = st.trace ++ [TraceEvent.toolInvoke tc.name args,
        TraceEvent.completionCall (mkRequest st'.messages tools)] ∧
      st'.final_text = st.final_text ++
        nextFragments (env.complete (mkRequest st'.messages tools)) := by
  unfold processToolCall at h
  split at h
  next => exact Except.noConfusion h
  next tool_args hnorm =>
    split at h
    next => exact Except.noConfusion h
    next result hcall =>
      split at h
      next => exact Except.noConfusion h
      next b bs hcontent =>
        injection h with h'
        subst h'
        refine ⟨tool_args, _, result, hnorm, hcall, ?_, rfl, rfl, rfl, rfl⟩
        rw [hcontent]
        simp

/-- Specification of a successful run of the tool-call loop, relating the
final state to the initial one. -/
structure RunSpec (env : Env) (tools : List GroqTool) (calls : List ToolCall)
    (st st' : LoopState) : Prop where
  traceExt : ∃ te, st'.trace = st.trace ++ te
  kinds : traceKinds st'.trace = traceKinds st.trace ++
    (calls.flatMap fun tc => [TraceKind.invoke tc.name, TraceKind.completion])
  msgs : ∃ t, st'.messages = st.messages ++ t ∧ t.length = calls.length ∧
    ∀ m ∈ t, m.role = "assistant"
  hists : ∃ hs, completionHistories st'.trace = completionHistories st.trace ++ hs ∧
    List.Chain appendLe st.messages hs ∧ hs.length = calls.length
  frags : ∃ fr, st'.final_text = st.final_text ++ fr ∧
    ∀ s ∈ fr, ∃ req, TraceEvent.completionCall req ∈ st'.trace ∧
      (env.complete req).message.content = some s
  invs : ∃ ps, invocationPairs st'.trace = invocationPairs st.trace ++ ps ∧
    (∀ p ∈ ps, ∃ r, env.callTool p.1 p.2 = Except.ok r ∧ r.content ≠ []) ∧
    ps.map Prod.fst = calls.map ToolCall.name

/-- The tool-call loop satisfies its specification. -/
lemma runToolCalls_spec {env : Env} {tools : List GroqTool} :
    ∀ {calls : List ToolCall} {st st' : LoopState},
      runToolCalls env tools calls st = Except.ok st' → RunSpec env tools calls st st'
  | [], st, st', h => by
      unfold runToolCalls at h
      injection h with h'
      subst h'
      exact { traceExt := ⟨[], by simp⟩
              kinds := by simp
              msgs := ⟨[], by simp, rfl, by simp⟩
              hists := ⟨[], by simp, List.Chain.nil, rfl⟩
              frags := ⟨[], by simp, by simp⟩
              invs := ⟨[], by simp, by simp, by simp⟩ }
  | tc :: rest, st, st', h => by
      unfold runToolCalls at h
      split at h
      next => exact Except.noConfusion h
      next st1 heq =>
        obtain ⟨args, msg, r, hnorm, hcall, hrne, hrole, hmsgs, htrace, hfinal⟩ :=
          processToolCall_ok heq
        have ih := runToolCalls_spec h
        have hkindstep : traceKinds st1.trace =
            traceKinds st.trace ++ [TraceKind.invoke tc.name, TraceKind.completion] := by
          rw [htrace]; simp [traceKinds]
        have hhiststep : completionHistories st1.trace =
            completionHistories st.trace ++ [st1.messages] := by
          rw [htrace]; simp [completionHistories, mkRequest]
        have hinvstep : invocationPairs st1.trace =
            invocationPairs st.trace ++ [(tc.name, args)] := by
          rw [htrace]; simp [invocationPairs]
        refine
          { traceExt := ?_, kinds := ?_, msgs := ?_, hists := ?_, frags := ?_, invs := ?_ }
        · obtain ⟨te, hte⟩ := ih.traceExt
          exact ⟨[TraceEvent.toolInvoke tc.name args,
                  TraceEvent.completionCall (mkRequest st1.messages tools)] ++ te,
                 by rw [hte, htrace, List.append_assoc]⟩
        · rw [ih.kinds, hkindstep]
          simp [List.append_assoc]
        · obtain ⟨t, ht, hlen, hroles⟩ := ih.msgs
          refine ⟨msg :: t, ?_, by simp [hlen], ?_⟩
          · rw [ht, hmsgs]
            simp
          · intro m hm
            rcases List.mem_cons.mp hm with h1 | h2
            · rw [h1]; exact hrole
            · exact hroles m h2
        · obtain ⟨hs, hh, hchain, hlen⟩ := ih.hists
          refine ⟨st1.messages :: hs, ?_, ?_, by simp [hlen]⟩
          · rw [hh, hhiststep]
            simp
          · exact List.Chain.cons ⟨[msg], hmsgs⟩ hchain
        · obtain ⟨fr, hf, hsrc⟩ := ih.frags
          refine ⟨nextFragments (env.complete (mkRequest st1.messages tools)) ++ fr, ?_, ?_⟩
          · rw [hf, hfinal]
            simp
          · intro s hs
            rcases List.mem_append.mp hs with h1 | h2
            · refine ⟨mkRequest st1.messages tools, ?_, mem_nextFragments h1⟩
              obtain ⟨te, hte⟩ := ih.traceExt
              rw [hte, htrace]
              simp
            · exact hsrc s h2
        · obtain ⟨ps, hp, hgood, hnames⟩ := ih.invs
          refine ⟨(tc.name, args) :: ps, ?_, ?_, by simp [hnames]⟩
          · rw [hp, hinvstep]
            simp
          · intro p hpm
            rcases List.mem_cons.mp hpm with h1 | h2
            · rw [h1]
              exact ⟨r, hcall, hrne⟩
            · exact hgood p h2

/-- A successful singleton loop run is one successful iteration. -/
lemma runToolCalls_singleton {env : Env} {tools : List GroqTool} {tc : ToolCall}
    {st st' : LoopState} (h : runToolCalls env tools [tc] st = Except.ok st') :
    processToolCall env tools tc st = Except.ok st' := by
  unfold runToolCalls at h
  split at h
  next => exact Except.noConfusion h
  next st1 heq =>
    unfold runToolCalls at h
    injection h with h'
    subst h'
    exact heq

/-- On a stop response with truthy content, process_query returns the
outcome of the initial state extended with that single fragment. -/
lemma process_query_stop {env : Env} {q : String}
    (hfr : (initialChoice env q).finish_reason = "stop")
    (ht : truthy (initialChoice env q).message.content = true) :
    process_query env q = Except.ok (mkOutcome
      { initState env q with
        final_text := [(initialChoice env q).message.content.getD ""] }) := by
  simp only [process_query]
  rw [if_pos (show _ ∧ _ from ⟨hfr, ht⟩)]
  rfl

/-- On a tool_calls response, process_query is the packaged result of the
tool-call loop over the requested calls. -/
lemma process_query_toolcalls {env : Env} {q : String}
    (hfr : (initialChoice env q).finish_reason = "tool_calls") :
    process_query env q =
      match runToolCalls env (groq_tools env.listTools)
          (initialChoice env q).message.tool_calls (initState env q) with
      | Except.ok s => Except.ok (mkOutcome s)
      | Except.error e => Except.error e := by
  have h1 : ¬((initialChoice env q).finish_reason = "stop" ∧
      truthy (initialChoice env q).message.content = true) := by
    rintro ⟨hs, -⟩
    rw [hfr] at hs
    exact absurd hs (by decide)
  by_cases h2 : (initialChoice env q).message.tool_calls = []
  · simp only [process_query]
    rw [if_neg h1, if_neg (show ¬(_ ∧ _) by rintro ⟨-, hne⟩; exact hne h2), h2]
    rfl
  · simp only [process_query]
    rw [if_neg h1, if_pos (show _ ∧ _ from ⟨hfr, h2⟩)]

/-- When neither branch condition holds, process_query falls through and
returns the initial state unchanged. -/
lemma process_query_other {env : Env} {q : String}
    (h1 : ¬((initialChoice env q).finish_reason = "stop" ∧
      truthy (initialChoice env q).message.content = true))
    (h2 : ¬((initialChoice env q).finish_reason = "tool_calls" ∧
      (initialChoice env q).message.tool_calls ≠ [])) :
    process_query env q = Except.ok (mkOutcome (initState env q)) := by
  simp only [process_query]
  rw [if_neg h1, if_neg h2]

/-- Every successful outcome is the packaging of a loop state, so the
returned answer is the joined, stripped fragment list. -/
lemma process_query_ok_shape {env : Env} {q : String} {out : QueryOutcome}
    (h : process_query env q = Except.ok out) :
    out.answer = pyStrip (String.join out.fragments) := by
  simp only [process_query] at h
  split at h
  next => injection h with h'; subst h'; rfl
  next => exact Except.noConfusion h

/-- A successful query under a tool_calls first response comes from a
successful loop run. -/
lemma process_query_toolcalls_spec {env : Env} {q : String} {out : QueryOutcome}
    (h : process_query env q = Except.ok out)
    (hfr : (initialChoice env q).finish_reason = "tool_calls") :
    ∃ stF, runToolCalls env (groq_tools env.listTools)
        (initialChoice env q).message.tool_calls (initState env q) = Except.ok stF ∧
      out = mkOutcome stF := by
  rw [process_query_toolcalls hfr] at h
  split at h
  next s heq => exact ⟨s, heq, (Except.ok.inj h).symm⟩
  next => exact Except.noConfusion h

/-- Truthy optional content is the some of its default extraction. -/
lemma truthy_eq {o : Option String} (h : truthy o = true) : o = some (o.getD "") := by
  cases o with
  | none => exact absurd h (by simp [truthy])
  | some s => rfl

/-- Whether a trace-event kind is a tool invocation. -/
def isInvoke : TraceKind → Bool
  | TraceKind.invoke _ => true
  | TraceKind.completion => false

/-- The pattern asserted by the claim that the completion endpoint is
called again only after all requested tool calls have been processed: the
trace starts with the initial completion, and in the remainder every tool
invocation precedes every further completion call. -/
def completionOnlyAfterAllInvokes (ks : List TraceKind) : Bool :=
  match ks with
  | TraceKind.completion :: rest =>
      decide (rest = rest.filter isInvoke ++ rest.filter fun k => !isInvoke k)
  | _ => false

/-- Outcome of the two-tool-call environment. -/
def outTwo : QueryOutcome := outOf (process_query envTwoCalls "q")

/-- Outcome of the one-tool-call environment. -/
def outOne : QueryOutcome := outOf (process_query envOneCall "q")

/-- Outcome of the environment whose follow-up responses keep requesting
tools. -/
def outLoopy : QueryOutcome := outOf (process_query envLoopy "q")

/-- Outcome of the unknown-tool-name environment. -/
def outUnknown : QueryOutcome := outOf (process_query envUnknownTool "q")

/-- C1, counterexample: with two requested tool calls the orchestrator
calls the completion endpoint between the two invocations, so the claimed
pattern that the completion endpoint is called again only after all
requested tool calls have been processed is false on this input. -/
theorem C1_counterexample :
    traceKindsOf (process_query envTwoCalls "q") =
      [TraceKind.completion, TraceKind.invoke "search_papers", TraceKind.completion,
       TraceKind.invoke "extract_info", TraceKind.completion] ∧
    completionOnlyAfterAllInvokes (traceKindsOf (process_query envTwoCalls "q")) = false :=
  ⟨by decide, by decide⟩

/-- C1, amended: when the first completion response has finish reason
tool_calls, the orchestrator invokes the requested tools in the exact
order the model returned them, but it calls the completion endpoint again
after each individual tool call rather than once after all of them: the
event trace is the initial completion followed by one invoke-completion
pair per requested call, in request order. -/
theorem C1_tools_in_order_completion_after_each (env : Env) (q : String)
    (out : QueryOutcome) (h : process_query env q = Except.ok out)
    (hfr : (initialChoice env q).finish_reason = "tool_calls") :
    traceKinds out.trace = TraceKind.completion ::
      ((initialChoice env q).message.tool_calls.flatMap
        fun tc => [TraceKind.invoke tc.name, TraceKind.completion]) := by
  obtain ⟨stF, hrun, rfl⟩ := process_query_toolcalls_spec h hfr
  have hk := (runToolCalls_spec hrun).kinds
  show traceKinds stF.trace = _
  rw [hk]
  rfl

/-- C1, witness: the amended theorem evaluated on the two-tool-call
environment. -/
theorem C1_amended_witness :
    traceKinds outTwo.trace =
      [TraceKind.completion, TraceKind.invoke "search_papers", TraceKind.completion,
       TraceKind.invoke "extract_info", TraceKind.completion] :=
  (C1_tools_in_order_completion_after_each envTwoCalls "q" outTwo rfl rfl).trans (by decide)

/-- C2, counterexample: after one tool call on a fresh query, the next
completion call receives a message history of exactly 3 entries, not the
claimed minimum of 4 — only one message is appended per invocation. -/
theorem C2_counterexample :
    ((completionHistories (traceOf (process_query envOneCall "find papers"))).getD 1 []).length = 3 ∧
    ¬4 ≤ ((completionHistories (traceOf (process_query envOneCall "find papers"))).getD 1 []).length :=
  ⟨by decide, by decide⟩

/-- C2, amended: per tool invocation the orchestrator appends exactly one
message — an assistant steering instruction embedding the first
content-block text of the tool result — so after one tool call on a fresh
query the next completion call receives a history of exactly three
entries: system preamble, user query, steering instruction. -/
theorem C2_one_message_per_call_three_entry_history (env : Env) (q : String)
    (tc : ToolCall) (out : QueryOutcome)
    (hfr : (initialChoice env q).finish_reason = "tool_calls")
    (hcalls : (initialChoice env q).message.tool_calls = [tc])
    (h : process_query env q = Except.ok out) :
    (completionHistories out.trace).map (fun l => l.map Message.role) =
      [["system", "user"], ["system", "user", "assistant"]] := by
  obtain ⟨stF, hrun, rfl⟩ := process_query_toolcalls_spec h hfr
  rw [hcalls] at hrun
  have hstep := runToolCalls_singleton hrun
  obtain ⟨args, msg, r, -, -, -, hrole, hmsgs, htrace, -⟩ := processToolCall_ok hstep
  show (completionHistories stF.trace).map _ = _
  rw [htrace, hmsgs]
  simp [completionHistories, initState, initialRequest, mkRequest, initialMessages, hrole]

/-- C2, witness: the amended theorem evaluated on the one-tool-call
environment. -/
theorem C2_amended_witness :
    (completionHistories outOne.trace).map (fun l => l.map Message.role) =
      [["system", "user"], ["system", "user", "assistant"]] :=
  C2_one_message_per_call_three_entry_history envOneCall "q" tcSearch outOne rfl rfl rfl

/-- C3, counterexample: an argument-parse failure and a remote tool
failure both abort process_query with a raised error instead of being
recorded as tool-result messages, so the claim that these failures are
non-fatal for the query is false on these inputs. -/
theorem C3_counterexample :
    process_query envBadArgs "q" = Except.error (QueryError.argumentParse "not json") ∧
    process_query envToolFails "q" =
      Except.error (QueryError.toolExecution "search_papers" "rate limited") :=
  ⟨rfl, rfl⟩

/-- C3, amended: a tool call whose raw arguments fail to parse aborts
process_query with an argument-parse error, and a tool invocation that
fails remotely aborts process_query with a tool-execution error carrying
the remote payload; neither failure is recorded in the conversation
history — the error propagates out of process_query. -/
theorem C3_parse_and_tool_failures_abort (env : Env) (q : String) (tc : ToolCall)
    (rest : List ToolCall)
    (hfr : (initialChoice env q).finish_reason = "tool_calls")
    (hcalls : (initialChoice env q).message.tool_calls = tc :: rest) :
    (∀ s, tc.arguments = ToolArgs.str s → env.jsonParse s = none →
      process_query env q = Except.error (QueryError.argumentParse s)) ∧
    (∀ args payload, normalizeArgs env tc.arguments = Except.ok args →
      env.callTool tc.name args = Except.error payload →
      process_query env q = Except.error (QueryError.toolExecution tc.name payload)) := by
  have hpq := process_query_toolcalls hfr
  rw [hcalls] at hpq
  constructor
  · intro s harg hparse
    have hfail : processToolCall env (groq_tools env.listTools) tc (initState env q) =
        Except.error (QueryError.argumentParse s) := by
      unfold processToolCall normalizeArgs
      rw [harg]
      simp [hparse]
    rw [hpq]
    unfold runToolCalls
    rw [hfail]
  · intro args payload hnorm hcall
    have hfail : processToolCall env (groq_tools env.listTools) tc (initState env q) =
        Except.error (QueryError.toolExecution tc.name payload) := by
      unfold processToolCall
      rw [hnorm]
      simp [hcall]
    rw [hpq]
    unfold runToolCalls
    rw [hfail]

/-- C3, witness: the amended theorem evaluated on the bad-argument and
failing-tool environments. -/
theorem C3_amended_witness :
    process_query envBadArgs "hello" = Except.error (QueryError.argumentParse "not json") ∧
    process_query envToolFails "hello" =
      Except.error (QueryError.toolExecution "search_papers" "rate limited") :=
  ⟨(C3_parse_and_tool_failures_abort envBadArgs "hello" tcBadArgs [] rfl rfl).1
      "not json" rfl rfl,
   (C3_parse_and_tool_failures_abort envToolFails "hello" tcSearch [] rfl rfl).2
      [("topic", "superconductors")] "rate limited" rfl rfl⟩

/-- C4, counterexample: the model requests a tool name absent from the
catalog, yet the orchestrator passes it to the tool executor and records
no unknown-tool result, so the claim that the executor is never called
for an unknown name is false on this input. -/
theorem C4_counterexample :
    (invocationPairs (traceOf (process_query envUnknownTool "q"))).map Prod.fst =
      ["mystery_tool"] ∧
    "mystery_tool" ∉ envUnknownTool.listTools.map ToolDescriptor.name :=
  ⟨by decide, by decide⟩

/-- C4, amended: the orchestrator performs no catalog-membership check: a
requested tool whose name is absent from the current tool catalog is
still passed to the tool executor, as the first invocation of the turn,
and no unknown-tool error result is recorded. -/
theorem C4_unknown_name_still_invoked (env : Env) (q : String) (tc : ToolCall)
    (rest : List ToolCall) (out : QueryOutcome)
    (hfr : (initialChoice env q).finish_reason = "tool_calls")
    (hcalls : (initialChoice env q).message.tool_calls = tc :: rest)
    (hunknown : tc.name ∉ env.listTools.map ToolDescriptor.name)
    (h : process_query env q = Except.ok out) :
    ((invocationPairs out.trace).map Prod.fst).head? = some tc.name := by
  obtain ⟨stF, hrun, rfl⟩ := process_query_toolcalls_spec h hfr
  obtain ⟨ps, hp, -, hnames⟩ := (runToolCalls_spec hrun).invs
  show ((invocationPairs stF.trace).map Prod.fst).head? = _
  rw [hp]
  simp [initState, invocationPairs, hnames, hcalls]

/-- C4, witness: the amended theorem evaluated on the unknown-tool
environment. -/
theorem C4_amended_witness :
    ((invocationPairs outUnknown.trace).map Prod.fst).head? = some "mystery_tool" :=
  C4_unknown_name_still_invoked envUnknownTool "q" tcMystery [] outUnknown rfl rfl
    (by decide) rfl

/-- C5, counterexample: a stop response with absent text and a tool_calls
response with an empty tool-call list are both handled silently —
process_query succeeds with the empty string instead of surfacing an
invalid-provider-response error. -/
theorem C5_counterexample :
    queryAnswers (process_query envStopEmpty "q") = some "" ∧
    queryAnswers (process_query envEmptyToolCalls "q") = some "" :=
  ⟨rfl, rfl⟩

/-- C5, amended: nothing validates the normalized completion response: on
a stop response without truthy text, and on a tool_calls response with an
empty tool-call list, process_query falls through silently and returns
the empty string; no error of any kind is raised. -/
theorem C5_invalid_responses_silently_yield_empty (env : Env) (q : String) :
    ((initialChoice env q).finish_reason = "stop" →
      truthy (initialChoice env q).message.content = false →
      process_query env q = Except.ok (mkOutcome (initState env q))) ∧
    ((initialChoice env q).finish_reason = "tool_calls" →
      (initialChoice env q).message.tool_calls = [] →
      process_query env q = Except.ok (mkOutcome (initState env q))) ∧
    (mkOutcome (initState env q)).answer = "" := by
  refine ⟨?_, ?_, rfl⟩
  · intro hfr hcont
    apply process_query_other
    · rintro ⟨-, ht⟩
      rw [hcont] at ht
      exact Bool.noConfusion ht
    · rintro ⟨hf, -⟩
      rw [hfr] at hf
      exact absurd hf (by decide)
  · intro hfr hempty
    apply process_query_other
    · rintro ⟨hs, -⟩
      rw [hfr] at hs
      exact absurd hs (by decide)
    · rintro ⟨-, hne⟩
      exact hne hempty

/-- C5, witness: the amended theorem evaluated on the empty-stop and
empty-tool-call environments. -/
theorem C5_amended_witness :
    process_query envStopEmpty "q" = Except.ok (mkOutcome (initState envStopEmpty "q")) ∧
    process_query envEmptyToolCalls "q" =
      Except.ok (mkOutcome (initState envEmptyToolCalls "q")) :=
  ⟨(C5_invalid_responses_silently_yield_empty envStopEmpty "q").1 rfl rfl,
   (C5_invalid_responses_silently_yield_empty envEmptyToolCalls "q").2.1 rfl rfl⟩

/-- C6: the string returned by process_query is the concatenation of all
collected text fragments, stripped of surrounding whitespace, and every
fragment is the content of some completion response of this query — the
steering instructions are appended only to the message history and never
enter the returned answer. -/
theorem C6_answer_is_stripped_concat_of_model_fragments (env : Env) (q : String)
    (out : QueryOutcome) (h : process_query env q = Except.ok out) :
    out.answer = pyStrip (String.join out.fragments) ∧
    ∀ s ∈ out.fragments, ∃ req, TraceEvent.completionCall req ∈ out.trace ∧
      (env.complete req).message.content = some s := by
  refine ⟨process_query_ok_shape h, ?_⟩
  by_cases hfr : (initialChoice env q).finish_reason = "tool_calls"
  · obtain ⟨stF, hrun, rfl⟩ := process_query_toolcalls_spec h hfr
    obtain ⟨fr, hf, hsrc⟩ := (runToolCalls_spec hrun).frags
    intro s hs
    have hfrag : (mkOutcome stF).fragments = fr := by
      show stF.final_text = fr
      rw [hf]
      rfl
    rw [hfrag] at hs
    exact hsrc s hs
  · by_cases hstop : (initialChoice env q).finish_reason = "stop" ∧
        truthy (initialChoice env q).message.content = true
    · rw [process_query_stop hstop.1 hstop.2] at h
      injection h with h'
      subst h'
      intro s hs
      have hs' : s = (initialChoice env q).message.content.getD "" := by
        simpa [mkOutcome] using hs
      refine ⟨initialRequest env q, by simp [mkOutcome, initState], ?_⟩
      rw [hs']
      exact truthy_eq hstop.2
    · have h2 : ¬((initialChoice env q).finish_reason = "tool_calls" ∧
          (initialChoice env q).message.tool_calls ≠ []) := fun hc => hfr hc.1
      rw [process_query_other hstop h2] at h
      injection h with h'
      subst h'
      intro s hs
      exact absurd hs (by simp [mkOutcome, initState])

/-- C6, witness: the theorem evaluated on the one-tool-call environment. -/
theorem C6_witness : outOne.answer = pyStrip (String.join outOne.fragments) :=
  (C6_answer_is_stripped_concat_of_model_fragments envOneCall "q" outOne rfl).1

/-- C7: an error raised while processing one query in the session loop is
reported as a per-query error event and the loop continues with the
remaining inputs unchanged — no error propagates across queries or
terminates the loop. -/
theorem C7_errors_reported_per_query_loop_continues (env : Env) (q : String)
    (rest : List String) (e : QueryError)
    (hq : pyLower (pyStrip q) ≠ "quit")
    (he : process_query env (pyStrip q) = Except.error e) :
    chat_loop env (q :: rest) = SessionEvent.errorMsg e :: chat_loop env rest := by
  simp only [chat_loop]
  rw [if_neg hq, he]

/-- C7, witness: the theorem evaluated on the bad-argument environment
with a further pending input. -/
theorem C7_witness :
    chat_loop envBadArgs ["hello", "quit"] =
      SessionEvent.errorMsg (QueryError.argumentParse "not json") ::
        chat_loop envBadArgs ["quit"] :=
  C7_errors_reported_per_query_loop_continues envBadArgs "hello" ["quit"]
    (QueryError.argumentParse "not json") (by decide) rfl

/-- C8: within one query the conversation history is append-only — each
completion call's history extends every earlier completion call's history
by appended messages, so earlier messages persist in the same relative
order in every later call. -/
theorem C8_history_append_only_prefix_chain (env : Env) (q : String)
    (out : QueryOutcome) (h : process_query env q = Except.ok out) :
    List.Pairwise appendLe (completionHistories out.trace) := by
  by_cases hfr : (initialChoice env q).finish_reason = "tool_calls"
  · obtain ⟨stF, hrun, rfl⟩ := process_query_toolcalls_spec h hfr
    obtain ⟨hs, hh, hchain, -⟩ := (runToolCalls_spec hrun).hists
    show List.Pairwise appendLe (completionHistories stF.trace)
    rw [hh]
    exact List.chain_iff_pairwise.mp hchain
  · by_cases hstop : (initialChoice env q).finish_reason = "stop" ∧
        truthy (initialChoice env q).message.content = true
    · rw [process_query_stop hstop.1 hstop.2] at h
      injection h with h'
      subst h'
      simp [mkOutcome, initState, completionHistories]
    · have h2 : ¬((initialChoice env q).finish_reason = "tool_calls" ∧
          (initialChoice env q).message.tool_calls ≠ []) := fun hc => hfr hc.1
      rw [process_query_other hstop h2] at h
      injection h with h'
      subst h'
      simp [mkOutcome, initState, completionHistories]

/-- C8, witness: the theorem evaluated on the one-tool-call environment. -/
theorem C8_witness : List.Pairwise appendLe (completionHistories outOne.trace) :=
  C8_history_append_only_prefix_chain envOneCall "q" outOne rfl

/-- C9: process_query performs at most one round of tool invocations — if
the first response requests N tool calls, exactly 1 + N completion calls
are made in total, and the executed invocations are exactly the first
response's requests, so tool calls requested by follow-up responses are
never executed. -/
theorem C9_exactly_one_tool_round (env : Env) (q : String) (out : QueryOutcome)
    (h : process_query env q = Except.ok out)
    (hfr : (initialChoice env q).finish_reason = "tool_calls") :
    (completionHistories out.trace).length =
      1 + (initialChoice env q).message.tool_calls.length ∧
    (invocationPairs out.trace).map Prod.fst =
      (initialChoice env q).message.tool_calls.map ToolCall.name := by
  obtain ⟨stF, hrun, rfl⟩ := process_query_toolcalls_spec h hfr
  have spec := runToolCalls_spec hrun
  constructor
  · obtain ⟨hs, hh, -, hlen⟩ := spec.hists
    show (completionHistories stF.trace).length = _
    rw [hh, List.length_append, hlen]
    rfl
  · obtain ⟨ps, hp, -, hnames⟩ := spec.invs
    show (invocationPairs stF.trace).map Prod.fst = _
    rw [hp]
    simp [initState, invocationPairs, hnames]

/-- C9, witness: the theorem evaluated on the environment whose follow-up
responses keep requesting tools — two invocations, three completion
calls, and the follow-up requests are never executed. -/
theorem C9_witness :
    (completionHistories outLoopy.trace).length = 3 ∧
    (invocationPairs outLoopy.trace).map Prod.fst = ["search_papers", "extract_info"] := by
  have h := C9_exactly_one_tool_round envLoopy "q" outLoopy rfl rfl
  exact ⟨h.1.trans (by decide), h.2.trans (by decide)⟩

/-- C10: folding a tool result into the conversation requires at least
one content block — a successful query implies every executed invocation
returned non-empty content, and a first tool call whose result has an
empty content sequence makes process_query fail with the index error
raised while building the steering instruction. -/
theorem C10_empty_result_content_fatal (env : Env) (q : String) :
    (∀ out, process_query env q = Except.ok out →
      ∀ p ∈ invocationPairs out.trace, ∀ r, env.callTool p.1 p.2 = Except.ok r →
        r.content ≠ []) ∧
    (∀ tc rest args r, (initialChoice env q).finish_reason = "tool_calls" →
      (initialChoice env q).message.tool_calls = tc :: rest →
      normalizeArgs env tc.arguments = Except.ok args →
      env.callTool tc.name args = Except.ok r → r.content = [] →
      process_query env q = Except.error QueryError.indexError) := by
  constructor
  · intro out h p hp r hr
    by_cases hfr : (initialChoice env q).finish_reason = "tool_calls"
    · obtain ⟨stF, hrun, rfl⟩ := process_query_toolcalls_spec h hfr
      obtain ⟨ps, hps, hgood, -⟩ := (runToolCalls_spec hrun).invs
      have hp' : p ∈ ps := by
        have hi : invocationPairs (mkOutcome stF).trace = ps := by
          show invocationPairs stF.trace = ps
          rw [hps]
          rfl
        rwa [hi] at hp
      obtain ⟨r0, hr0, hne⟩ := hgood p hp'
      rw [hr0] at hr
      have := Except.ok.inj hr
      subst this
      exact hne
    · by_cases hstop : (initialChoice env q).finish_reason = "stop" ∧
          truthy (initialChoice env q).message.content = true
      · rw [process_query_stop hstop.1 hstop.2] at h
        injection h with h'
        subst h'
        exact absurd hp (by simp [mkOutcome, initState, invocationPairs])
      · have h2 : ¬((initialChoice env q).finish_reason = "tool_calls" ∧
            (initialChoice env q).message.tool_calls ≠ []) := fun hc => hfr hc.1
        rw [process_query_other hstop h2] at h
        injection h with h'
        subst h'
        exact absurd hp (by simp [mkOutcome, initState, invocationPairs])
  · intro tc rest args r hfr hcalls hnorm hcall hempty
    have hpq := process_query_toolcalls hfr
    rw [hcalls] at hpq
    have hfail : processToolCall env (groq_tools env.listTools) tc (initState env q) =
        Except.error QueryError.indexError := by
      unfold processToolCall
      rw [hnorm]
      simp [hcall, hempty]
    rw [hpq]
    unfold runToolCalls
    rw [hfail]

/-- C10, witness: the theorem evaluated on the empty-content environment,
whose first tool call yields a result without content blocks. -/
theorem C10_witness :
    process_query envEmptyContent "q" = Except.error QueryError.indexError :=
  (C10_empty_result_content_fatal envEmptyContent "q").2 tcSearch []
    [("topic", "superconductors")] { content := [] } rfl rfl rfl rfl rfl

end MCPClient
